import Mathlib

/-!
Verification of the enrichM annotation engine (`enrichm/annotate.py`,
`enrichm/parser.py`) against its specification.

The Python code is shallowly embedded: each relevant function is translated
into an executable Lean definition operating on lists of strings (file lines)
or option-valued threshold configurations (rationals standing for the floats).
Fallible Python code (uncaught `ValueError` / `KeyError` / `NameError`) is
embedded with `Except String`.
-/

namespace EnrichM

/-! ## Python string primitives

`str.strip`, `str.split('\t')`, `str.split('~')` and `str.split()` are
re-implemented over `List Char` so that all definitions reduce inside the
kernel. -/

/-- Whitespace as recognised by Python `str.strip` / `str.split()`. -/
def pyIsWs (c : Char) : Bool :=
  c = ' ' || c = '\t' || c = '\n' || c = '\r' || c = '\x0b' || c = '\x0c'

/-- Strip leading and trailing whitespace from a character list. -/
def stripList (cs : List Char) : List Char :=
  ((cs.dropWhile pyIsWs).reverse.dropWhile pyIsWs).reverse

/-- Python `s.strip()`. -/
def pyStrip (s : String) : String :=
  String.mk (stripList s.toList)

/-- Split a character list on a separator character; Python `s.split(sep)`
semantics: the empty list splits to one empty field. -/
def splitCharList (sep : Char) : List Char → List (List Char)
  | [] => [[]]
  | c :: cs =>
    let rest := splitCharList sep cs
    if c = sep then
      [] :: rest
    else
      match rest with
      | r :: rs => (c :: r) :: rs
      | [] => [[c]]

/-- Python `s.split(sep)` for a single-character separator. -/
def pySplitChar (sep : Char) (s : String) : List String :=
  (splitCharList sep s.toList).map String.mk

/-- Split on whitespace runs, dropping empty fields: Python `s.split()`.
`cur` accumulates the current word in reverse. -/
def splitWsAux : List Char → List Char → List (List Char)
  | cur, [] => if cur.isEmpty then [] else [cur.reverse]
  | cur, c :: cs =>
    if pyIsWs c then
      if cur.isEmpty then splitWsAux [] cs else cur.reverse :: splitWsAux [] cs
    else
      splitWsAux (c :: cur) cs

/-- Python `s.split()` (no separator argument). -/
def pySplitWs (s : String) : List String :=
  (splitWsAux [] s.toList).map String.mk

/-! ## Cluster resolver: `Annotate.parse_cluster_results`

The Python loop keeps `cluster_ids : set`, `previous_cluster_name`,
`counter`, and for each input line splits it into `(cluster_id, member)`,
splits `member` on `'~'` into `(genome_id, sequence_id)`, assigns the
synthetic identifier `"cluster_%i" % counter` (incrementing `counter` when
the raw key differs from the previous line's key), records the assignment on
the genome object via `add_cluster`, and writes a
`genome_id \t sequence_id \t cluster id` row to the output file.

The embedding keeps the numeric counter value of each assignment in the row
record; the written file row is recovered by `fileRows` / `fileLines`, which
format the counter exactly as `"cluster_%i" % counter` does. -/

/-- The synthetic identifier string `"cluster_%i" % n`. -/
def clusterIdString (n : Nat) : String :=
  "cluster_" ++ toString n

/-- One processed membership line: the raw cluster key, the two halves of the
member key, and the numeric suffix of the assigned cluster identifier. -/
structure ClusterRow where
  key : String
  genomeId : String
  sequenceId : String
  num : Nat
deriving DecidableEq, Repr

/-- The mutable state of the `parse_cluster_results` loop, plus the trace of
assignments (`add_cluster` calls, which coincide one-to-one with the rows
written to the hypothetical-annotations output file). -/
structure ClusterState where
  clusterIds : List String
  previous : Option String
  counter : Nat
  rows : List ClusterRow
deriving DecidableEq, Repr

/-- State at entry of the loop: `cluster_ids = set()`,
`previous_cluster_name = None`, `counter = 0`. -/
def initClusterState : ClusterState :=
  { clusterIds := [], previous := none, counter := 0, rows := [] }

/-- One iteration of the `parse_cluster_results` loop on one input line.
Mirrors annotate.py lines 369-382.  A line that does not split into exactly
two tab-separated fields, or whose member key does not split into exactly two
`'~'`-separated fields, raises (uncaught `ValueError`); a member key naming a
genome absent from `genome_dictionary` raises `KeyError` (in the source the
lookup happens inside each branch of the `if`; since an exception aborts the
whole call either way, the guard is hoisted here). -/
def parseClusterLine (genomes : List String) (st : ClusterState) (line : String) :
    Except String ClusterState :=
  match pySplitChar '\t' (pyStrip line) with
  | [cluster_id, member] =>
    match pySplitChar '~' member with
    | [genome_id, sequence_id] =>
      if genome_id ∈ genomes then
        if st.previous = some cluster_id then
          .ok { st with
                rows := st.rows ++ [⟨cluster_id, genome_id, sequence_id, st.counter⟩] }
        else
          .ok { clusterIds := st.clusterIds ++ [clusterIdString (st.counter + 1)],
                previous := some cluster_id,
                counter := st.counter + 1,
                rows := st.rows ++ [⟨cluster_id, genome_id, sequence_id, st.counter + 1⟩] }
      else
        .error ("KeyError: " ++ genome_id)
    | _ => .error ("ValueError: cannot unpack member " ++ member)
  | _ => .error ("ValueError: cannot unpack line " ++ line)

/-- The `for line in open(cluster_output_path)` loop. -/
def parseClusterLines (genomes : List String) (st : ClusterState) :
    List String → Except String ClusterState
  | [] => .ok st
  | l :: ls =>
    match parseClusterLine genomes st l with
    | .ok st2 => parseClusterLines genomes st2 ls
    | .error e => .error e

/-- Embedding of `Annotate.parse_cluster_results`: `lines` are the lines of the
mmseqs cluster tsv file, `genomes` the names of the genomes in
`genomes_list` (the keys of `genome_dictionary`).  Returns the final loop
state; the Python function's return value is the `clusterIds` component and
the side-effected output file is `fileLines`. -/
def parse_cluster_results (lines : List String) (genomes : List String) :
    Except String ClusterState :=
  parseClusterLines genomes initClusterState lines

/-- The `(genome id, protein id, cluster id)` triples written to the
hypothetical-annotations output file, one per processed line, in order. -/
def fileRows (st : ClusterState) : List (String × String × String) :=
  st.rows.map (fun r => (r.genomeId, r.sequenceId, clusterIdString r.num))

/-- The physical lines of the output file:
`'\t'.join([genome_id, sequence_id, "cluster_%i" % counter]) + '\n'`. -/
def fileLines (st : ClusterState) : List String :=
  st.rows.map (fun r =>
    r.genomeId ++ "\t" ++ r.sequenceId ++ "\t" ++ clusterIdString r.num ++ "\n")

/-- Pure per-line reading used to state correspondence between input lines
and processed rows: the `(cluster key, genome id, sequence id)` fields a
well-formed line parses to. -/
def parseLine (line : String) : Option (String × String × String) :=
  match pySplitChar '\t' (pyStrip line) with
  | [cluster_id, member] =>
    match pySplitChar '~' member with
    | [genome_id, sequence_id] => some (cluster_id, genome_id, sequence_id)
    | _ => none
  | _ => none

/-! ## Search command construction: `Annotate._diamond_search` and
`Annotate._hmm_search`

The threshold attributes (`self.evalue`, `self.bit`, `self.id`,
`self.aln_query`, `self.aln_reference`) are floats or `None`; embedded as
`Option ℚ`.  The commands are embedded as the list of threshold flag/value
pairs appended to the fixed part of the command line, in source order.
Python guards each flag with truthiness (`if self.evalue:`), so a present
value of `0.0` is skipped exactly like `None`. -/

/-- Python truthiness of an optional float attribute. -/
def truthy (v : Option ℚ) : Bool :=
  match v with
  | some x => x ≠ 0
  | none => false

/-- A flag emitted with the configured value unchanged, under truthiness. -/
def optFlag (name : String) (v : Option ℚ) : List (String × ℚ) :=
  match v with
  | some x => if x = 0 then [] else [(name, x)]
  | none => []

/-- A flag emitted with the configured value multiplied by 100, under
truthiness (`"--query-cover %f " % (self.aln_query * 100)`). -/
def optFlag100 (name : String) (v : Option ℚ) : List (String × ℚ) :=
  match v with
  | some x => if x = 0 then [] else [(name, x * 100)]
  | none => []

/-- The threshold attributes of an `Annotate` instance used by the search
commands. -/
structure SearchThresholds where
  evalue : Option ℚ
  bit : Option ℚ
  id : Option ℚ
  aln_query : Option ℚ
  aln_reference : Option ℚ
deriving DecidableEq, Repr

/-- The threshold flags appended to the diamond blastp command by
`Annotate._diamond_search` (annotate.py lines 228-239), in source order:
`--evalue` and `--min-score` unchanged, `--id` unchanged, `--query-cover`
and `--subject-cover` multiplied by 100. -/
def diamond_search_args (t : SearchThresholds) : List (String × ℚ) :=
  optFlag "--evalue" t.evalue ++
  optFlag "--min-score" t.bit ++
  optFlag "--id" t.id ++
  optFlag100 "--query-cover" t.aln_query ++
  optFlag100 "--subject-cover" t.aln_reference

/-- The threshold flags appended to the hmmsearch command by
`Annotate._hmm_search` (annotate.py lines 402-405): only `-E` and `-T`; the
identity threshold adds no flag. -/
def hmm_search_args (t : SearchThresholds) : List (String × ℚ) :=
  optFlag "-E" t.evalue ++
  optFlag "-T" t.bit

/-- The warnings logged by `Annotate._hmm_search` (annotate.py lines
406-407): a truthy identity threshold logs a warning and does nothing
else. -/
def hmm_search_warnings (t : SearchThresholds) : List String :=
  if truthy t.id then ["--id flag not used for hmmsearch"] else []

/-! ## `Parser.parse_genome_and_annotation_file_lf`

The Python function builds `genome_to_annotation_sets : dict genome → set`;
embedded as an association list whose values are duplicate-free accumulation
lists (set semantics: membership is what downstream reads).  A line whose
stripped content does not split into exactly two tab-separated fields makes
the `genome, annotation = ...` unpacking raise, caught and re-raised as
`Exception("Input genomes/annotation file error on %s" % line)`. -/

/-- The tab-separated fields of a stripped line. -/
def lfFields (line : String) : List String :=
  pySplitChar '\t' (pyStrip line)

/-- Python `genome_to_annotation_sets[genome].add(annotation)`, creating the set on
first sight of the genome. -/
def insertAnnot : List (String × List String) → String → String →
    List (String × List String)
  | [], g, a => [(g, [a])]
  | (g0, s) :: rest, g, a =>
    if g0 = g then
      (g0, if a ∈ s then s else s ++ [a]) :: rest
    else
      (g0, s) :: insertAnnot rest g a

/-- The `for line in open(...)` loop of `parse_genome_and_annotation_file_lf`
(parser.py lines 43-54). -/
def parseLfLines : List (String × List String) → List String →
    Except String (List (String × List String))
  | acc, [] => .ok acc
  | acc, line :: rest =>
    match lfFields line with
    | [genome, annotation] => parseLfLines (insertAnnot acc genome annotation) rest
    | _ => .error ("Input genomes/annotation file error on " ++ line)

/-- Embedding of `Parser.parse_genome_and_annotation_file_lf` over the file's
lines. -/
def parse_genome_and_annotation_file_lf (lines : List String) :
    Except String (List (String × List String)) :=
  parseLfLines [] lines

/-- The first line of the file that does not split into exactly two
tab-separated fields, if any. -/
def firstBadLfLine (lines : List String) : Option String :=
  lines.find? (fun l => (lfFields l).length != 2)

/-! ## `Parser.filter_large_matrix`

parser.py imports only `Databases` (line 31); the module namespace never
defines `logging`.  The first statement of `filter_large_matrix` (line 164)
is `logging.info('Parsing GTDB matrix')`, whose name resolution therefore
raises `NameError` before the matrix is read.  The embedding resolves
`logging` against the module's global names first and only then runs the
translated body (which is consequently unreachable, exactly as in the
source, where every call raises before reaching line 166). -/

/-- The names bound at module level in parser.py: the dunder constants
(lines 19-26), the single import (line 31) and the class itself. -/
def parser_module_globals : List String :=
  ["__author__", "__copyright__", "__credits__", "__license__", "__version__",
   "__maintainer__", "__email__", "__status__", "Databases", "Parser"]

/-- Python `int(s)`: parses an optionally signed decimal integer after
stripping whitespace, raising `ValueError` otherwise (modelled with
`String.toInt?`). -/
def pyInt (s : String) : Except String Int :=
  match (pyStrip s).toInt? with
  | some n => .ok n
  | none => .error ("ValueError: invalid literal for int: " ++ s)

/-- Python `output_dict[column][annotation] = v` on the association-list embedding
of the nested dict. -/
def setEntry (od : List (String × List (String × Int))) (col ann : String)
    (v : Int) : List (String × List (String × Int)) :=
  od.map (fun p =>
    if p.1 = col then
      (p.1,
        if p.2.any (fun q => q.1 = ann) then
          p.2.map (fun q => if q.1 = ann then (ann, v) else q)
        else
          p.2 ++ [(ann, v)])
    else p)

/-- Embedding of `Parser.filter_large_matrix` (parser.py lines 153-193): resolve
`logging` (absent, hence `NameError`); the translated body after that point
follows the source but can never run. -/
def filter_large_matrix (columns : List String) (matrixLines : List String) :
    Except String (List (String × List (String × Int)) × List String) :=
  if "logging" ∈ parser_module_globals then
    let header := pySplitChar '\t' (pyStrip (matrixLines.headD ""))
    let kept := columns.filter (fun c => c ∈ header)
    let indexes := kept.map (fun c => header.indexOf c)
    let od0 : List (String × List (String × Int)) := kept.map (fun c => (c, []))
    let step : List (String × List (String × Int)) → String →
        Except String (List (String × List (String × Int))) := fun od row =>
      let srow := pySplitWs row
      match srow with
      | [] => .error "IndexError: list index out of range"
      | annotation :: _ =>
        (kept.zip indexes).foldlM (fun od2 ci =>
          match srow.get? ci.2 with
          | none => .error "IndexError: list index out of range"
          | some cell =>
            match pyInt cell with
            | .ok count =>
              if count > 0 then .ok (setEntry od2 ci.1 annotation count) else .ok od2
            | .error e => .error e) od
    match matrixLines.tail.foldlM step od0 with
    | .ok od => .ok (od, kept)
    | .error e => .error e
  else
    .error "NameError: name logging is not defined"

/-! ## Auxiliary predicates for the cluster-resolver proofs -/

/-- Relation between adjacent rows of the assignment trace: equal raw keys
share the numeric identifier; a key change increments it by exactly one. -/
def adjStep (r1 r2 : ClusterRow) : Prop :=
  if r2.key = r1.key then r2.num = r1.num else r2.num = r1.num + 1

/-- Invariant of the `parse_cluster_results` loop state: the trace is an
`adjStep` chain, the minted identifier set is exactly
`cluster_1 … cluster_counter`, `previous_cluster_name` and `counter` agree
with the last processed row, and the first row got number 1. -/
def GoodState (st : ClusterState) : Prop :=
  List.Chain' adjStep st.rows ∧
  st.clusterIds = (List.range st.counter).map (fun k => clusterIdString (k + 1)) ∧
  (st.rows = [] → st.previous = none ∧ st.counter = 0) ∧
  (∀ r, st.rows.getLast? = some r → st.previous = some r.key ∧ st.counter = r.num) ∧
  (∀ r, st.rows.head? = some r → r.num = 1)

/-- A key sequence is grouped when rows sharing a raw key are contiguous:
anything lying between two equal keys is itself that key. -/
def Grouped (ks : List String) : Prop :=
  ∀ i j k (hij : i ≤ j) (hjk : j ≤ k) (hk : k < ks.length),
    ks.get ⟨i, lt_of_le_of_lt (le_trans hij hjk) hk⟩ = ks.get ⟨k, hk⟩ →
    ks.get ⟨j, lt_of_le_of_lt hjk hk⟩ = ks.get ⟨k, hk⟩

/-! ## Concrete claim inputs -/

/-- The end-to-end clustering scenario input: rows
`("rep1","G1~p1")`, `("rep1","G1~p2")`, `("rep2","G2~p3")` as tab-separated
lines. -/
def scenarioLines : List String :=
  ["rep1\tG1~p1", "rep1\tG1~p2", "rep2\tG2~p3"]

/-- The loop state `parse_cluster_results` reaches on `scenarioLines`. -/
def scenarioState : ClusterState :=
  { clusterIds := ["cluster_1", "cluster_2"],
    previous := some "rep2",
    counter := 2,
    rows := [⟨"rep1", "G1", "p1", 1⟩, ⟨"rep1", "G1", "p2", 1⟩, ⟨"rep2", "G2", "p3", 2⟩] }

/-- A configuration supplying the identity, query-coverage and
subject-coverage thresholds as the fraction 1/2 each. -/
def halfThresholds : SearchThresholds :=
  { evalue := none, bit := none,
    id := some (1/2), aln_query := some (1/2), aln_reference := some (1/2) }

/-- Final state on the two-member single-cluster input
`["ra\tGm~x1", "ra\tGm~x2"]` with genome list `["Gm"]`. -/
def twoRowState : ClusterState :=
  { clusterIds := ["cluster_1"], previous := some "ra", counter := 1,
    rows := [⟨"ra", "Gm", "x1", 1⟩, ⟨"ra", "Gm", "x2", 1⟩] }

/-- Final state on the two-cluster input `["rb\tGn~y1", "rc\tGn~y2"]` with
genome list `["Gn"]`. -/
def twoRunState : ClusterState :=
  { clusterIds := ["cluster_1", "cluster_2"], previous := some "rc", counter := 2,
    rows := [⟨"rb", "Gn", "y1", 1⟩, ⟨"rc", "Gn", "y2", 2⟩] }

/-- Final state on the single-line input `["rd\tGq~z1"]` with genome list
`["Gq"]`. -/
def oneRowState : ClusterState :=
  { clusterIds := ["cluster_1"], previous := some "rd", counter := 1,
    rows := [⟨"rd", "Gq", "z1", 1⟩] }

end EnrichM

deriving instance DecidableEq for Except

namespace EnrichM

/-! ## Claim theorems -/

/-- C1: on the already-grouped rows `("rep1","G1~p1")`, `("rep1","G1~p2")`,
`("rep2","G2~p3")`, `parse_cluster_results` assigns `"cluster_1"` to
proteins p1 and p2 of genome G1 and `"cluster_2"` to protein p3 of genome
G2, and returns exactly the identifier set
`{"cluster_1", "cluster_2"}`. -/
theorem parse_cluster_results_scenario :
    parse_cluster_results scenarioLines ["G1", "G2"] = .ok scenarioState ∧
    fileRows scenarioState =
      [("G1", "p1", "cluster_1"), ("G1", "p2", "cluster_1"), ("G2", "p3", "cluster_2")] ∧
    scenarioState.clusterIds = ["cluster_1", "cluster_2"] := by
  decide

/-- C9: `parse_cluster_results` is deterministic — identical input lines and
identical genome lists yield identical results (the same
(genome, protein) → cluster id assignment trace and the same minted
identifier set). -/
theorem parse_cluster_results_deterministic
    (lines1 lines2 genomes1 genomes2 : List String)
    (h1 : lines1 = lines2) (h2 : genomes1 = genomes2) :
    parse_cluster_results lines1 genomes1 = parse_cluster_results lines2 genomes2 := by
  rw [h1, h2]

/-- Witness for C9 at a concrete input. -/
theorem parse_cluster_results_deterministic_witness :
    parse_cluster_results ["repA\tGx~p7"] ["Gx"] = parse_cluster_results ["repA\tGx~p7"] ["Gx"] :=
  parse_cluster_results_deterministic ["repA\tGx~p7"] ["repA\tGx~p7"] ["Gx"] ["Gx"] rfl rfl

/-- C10: every call of `Parser.filter_large_matrix` raises `NameError` on
its first statement (`logging.info`), because `logging` is not among the
parser module's global names; no matrix line is processed (the result does
not depend on `matrixLines` at all). -/
theorem filter_large_matrix_raises_name_error (columns matrixLines : List String) :
    filter_large_matrix columns matrixLines =
      .error "NameError: name logging is not defined" := by
  unfold filter_large_matrix
  exact if_neg (by decide)

/-- C4 counterexample: with all three thresholds configured as the fraction
1/2, the diamond command carries `--query-cover 50` and `--subject-cover 50`
but `--id 0.5` — the identity threshold is NOT multiplied by 100, so the
claim that each of the three fraction thresholds appears in the command
multiplied by 100 is false. -/
theorem diamond_search_id_not_rescaled :
    diamond_search_args halfThresholds =
      [("--id", 1/2), ("--query-cover", 50), ("--subject-cover", 50)] ∧
    ("--id", (100 : ℚ) * (1/2)) ∉ diamond_search_args halfThresholds := by
  constructor
  · norm_num [diamond_search_args, optFlag, optFlag100, halfThresholds]
  · norm_num [diamond_search_args, optFlag, optFlag100, halfThresholds]
    exact ⟨by decide, by decide⟩

/-- Looking a flag up past an `optFlag` segment with a different name. -/
theorem lookup_optFlag_ne {n m : String} (v : Option ℚ) (rest : List (String × ℚ))
    (h : (n == m) = false) :
    List.lookup n (optFlag m v ++ rest) = List.lookup n rest := by
  cases v with
  | none => rfl
  | some x =>
    by_cases hx : x = 0
    · simp [optFlag, hx]
    · simp [optFlag, hx, List.lookup, h]

/-- Looking a flag up past an `optFlag100` segment with a different name. -/
theorem lookup_optFlag100_ne {n m : String} (v : Option ℚ) (rest : List (String × ℚ))
    (h : (n == m) = false) :
    List.lookup n (optFlag100 m v ++ rest) = List.lookup n rest := by
  cases v with
  | none => rfl
  | some x =>
    by_cases hx : x = 0
    · simp [optFlag100, hx]
    · simp [optFlag100, hx, List.lookup, h]

/-- A truthy `optFlag` segment is found by lookup with its value unchanged. -/
theorem lookup_optFlag_self (n : String) (x : ℚ) (hx : x ≠ 0) (rest : List (String × ℚ)) :
    List.lookup n (optFlag n (some x) ++ rest) = some x := by
  simp [optFlag, hx, List.lookup]

/-- A truthy `optFlag100` segment is found by lookup with its value
multiplied by 100. -/
theorem lookup_optFlag100_self (n : String) (x : ℚ) (hx : x ≠ 0) (rest : List (String × ℚ)) :
    List.lookup n (optFlag100 n (some x) ++ rest) = some (x * 100) := by
  simp [optFlag100, hx, List.lookup]

/-- C4 amended: in the diamond blastp command, the query-coverage and
subject-coverage fractions are multiplied by 100, but the identity threshold
is passed to `--id` unchanged — it is not rescaled. -/
theorem diamond_search_args_scaling (t : SearchThresholds) :
    (∀ q, t.aln_query = some q → q ≠ 0 →
       List.lookup "--query-cover" (diamond_search_args t) = some (q * 100)) ∧
    (∀ r, t.aln_reference = some r → r ≠ 0 →
       List.lookup "--subject-cover" (diamond_search_args t) = some (r * 100)) ∧
    (∀ i, t.id = some i → i ≠ 0 →
       List.lookup "--id" (diamond_search_args t) = some i) := by
  obtain ⟨e, b, i0, q0, r0⟩ := t
  refine ⟨?_, ?_, ?_⟩
  · intro q hq hne
    cases hq
    rw [diamond_search_args]
    rw [List.append_assoc, List.append_assoc, List.append_assoc]
    rw [lookup_optFlag_ne _ _ (by decide), lookup_optFlag_ne _ _ (by decide),
        lookup_optFlag_ne _ _ (by decide)]
    exact lookup_optFlag100_self _ _ hne _
  · intro r hr hne
    cases hr
    rw [diamond_search_args]
    rw [List.append_assoc, List.append_assoc, List.append_assoc]
    rw [lookup_optFlag_ne _ _ (by decide), lookup_optFlag_ne _ _ (by decide),
        lookup_optFlag_ne _ _ (by decide), lookup_optFlag100_ne _ _ (by decide)]
    have := lookup_optFlag100_self "--subject-cover" r hne []
    simpa using this
  · intro i hi hne
    cases hi
    rw [diamond_search_args]
    rw [List.append_assoc, List.append_assoc, List.append_assoc]
    rw [lookup_optFlag_ne _ _ (by decide), lookup_optFlag_ne _ _ (by decide)]
    exact lookup_optFlag_self _ _ hne _

/-- Witness for the amended C4 at a concrete configuration. -/
theorem diamond_search_args_scaling_witness :
    List.lookup "--query-cover"
        (diamond_search_args ⟨none, none, none, some (1/4), none⟩) = some ((1/4) * 100) :=
  (diamond_search_args_scaling ⟨none, none, none, some (1/4), none⟩).1 (1/4) rfl (by norm_num)

/-- Every flag of an `optFlag` segment carries the segment's name. -/
theorem optFlag_name {p : String × ℚ} {n : String} {v : Option ℚ}
    (hp : p ∈ optFlag n v) : p.1 = n := by
  cases v with
  | none => cases hp
  | some x =>
    by_cases hx : x = 0
    · simp [optFlag, hx] at hp
    · simp [optFlag, hx] at hp
      rw [hp]

/-- C5: a configured identity threshold is a no-op for the hmmsearch
command: the command is identical to the one built with no identity
threshold, it only ever carries `-E` and `-T` flags, and the sole effect is
the warning log `--id flag not used for hmmsearch`; no exception is raised
(the embedding is total). -/
theorem hmm_search_id_noop (t : SearchThresholds) (h : truthy t.id = true) :
    hmm_search_args t = hmm_search_args { t with id := none } ∧
    (∀ p ∈ hmm_search_args t, p.1 = "-E" ∨ p.1 = "-T") ∧
    hmm_search_warnings t = ["--id flag not used for hmmsearch"] := by
  refine ⟨rfl, ?_, ?_⟩
  · intro p hp
    rcases List.mem_append.1 hp with hp | hp
    · exact Or.inl (optFlag_name hp)
    · exact Or.inr (optFlag_name hp)
  · simp [hmm_search_warnings, h]

/-- Witness for C5 at a concrete configuration. -/
theorem hmm_search_id_noop_witness :
    hmm_search_args ⟨some 1, some 2, some 3, none, none⟩ =
      hmm_search_args { (⟨some 1, some 2, some 3, none, none⟩ : SearchThresholds) with id := none } ∧
    hmm_search_warnings ⟨some 1, some 2, some 3, none, none⟩ =
      ["--id flag not used for hmmsearch"] :=
  ⟨(hmm_search_id_noop ⟨some 1, some 2, some 3, none, none⟩ (by norm_num [truthy])).1,
   (hmm_search_id_noop ⟨some 1, some 2, some 3, none, none⟩ (by norm_num [truthy])).2.2⟩

/-! ## The cluster-resolver loop invariant -/

/-- The loop invariant holds at loop entry. -/
theorem goodState_init : GoodState initClusterState := by
  refine ⟨List.chain'_nil, by simp [initClusterState], fun _ => ⟨rfl, rfl⟩, ?_, ?_⟩
  · intro r hr
    simp [initClusterState] at hr
  · intro r hr
    simp [initClusterState] at hr

/-- The last row of the trace extended by one row. -/
theorem getLast_concat_row (rows : List ClusterRow) (r r0 : ClusterRow)
    (h : (rows ++ [r]).getLast? = some r0) : r0 = r := by
  rw [List.getLast?_concat, Option.some_inj] at h
  exact h.symm

/-- One loop iteration preserves the invariant. -/
theorem parseClusterLine_good {genomes : List String} {st st' : ClusterState} {line : String}
    (h : parseClusterLine genomes st line = .ok st') (hg : GoodState st) : GoodState st' := by
  obtain ⟨hchain, hids, hnil, hlast, hhead⟩ := hg
  unfold parseClusterLine at h
  split at h
  · rename_i cluster_id member heqline
    split at h
    · rename_i genome_id sequence_id heqmem
      split at h
      · rename_i hmem
        split at h
        · rename_i hprev
          -- the raw key equals the previous line's key: reuse the counter
          injection h with h
          subst h
          rcases hr : st.rows.getLast? with - | last
          · rw [List.getLast?_eq_none_iff] at hr
            rw [(hnil hr).1] at hprev
            exact Option.noConfusion hprev
          · obtain ⟨hpl, hcl⟩ := hlast last hr
            rw [hpl] at hprev
            injection hprev with hkey
            refine ⟨?_, hids, fun habs => absurd habs (by simp), ?_, ?_⟩
            · refine List.Chain'.append hchain (List.chain'_singleton _) ?_
              intro x hx y hy
              rw [hr] at hx
              simp only [Option.mem_def, Option.some_inj] at hx
              simp only [List.head?_cons, Option.mem_def, Option.some_inj] at hy
              subst hx
              subst hy
              show adjStep last ⟨cluster_id, genome_id, sequence_id, st.counter⟩
              unfold adjStep
              rw [if_pos hkey.symm]
              exact hcl
            · intro r0 hr0
              rw [getLast_concat_row _ _ _ hr0]
              exact ⟨hpl.trans (congrArg some hkey), rfl⟩
            · intro r0 hr0
              rcases hrows : st.rows with - | ⟨x, xs⟩
              · rw [hrows] at hr
                simp at hr
              · rw [hrows, List.cons_append, List.head?_cons, Option.some_inj] at hr0
                subst hr0
                exact hhead x (by rw [hrows]; rfl)
        · rename_i hprev
          -- a new raw key: increment the counter and mint a new identifier
          injection h with h
          subst h
          refine ⟨?_, ?_, fun habs => absurd habs (by simp), ?_, ?_⟩
          · refine List.Chain'.append hchain (List.chain'_singleton _) ?_
            intro x hx y hy
            rcases hr : st.rows.getLast? with - | last
            · rw [hr] at hx
              exact absurd hx (by simp)
            · obtain ⟨hpl, hcl⟩ := hlast last hr
              rw [hr] at hx
              simp only [Option.mem_def, Option.some_inj] at hx
              simp only [List.head?_cons, Option.mem_def, Option.some_inj] at hy
              subst hx
              subst hy
              have hkey : ¬ cluster_id = last.key := by
                intro hk
                rw [hpl, hk] at hprev
                exact hprev rfl
              show adjStep last ⟨cluster_id, genome_id, sequence_id, st.counter + 1⟩
              unfold adjStep
              rw [if_neg hkey]
              rw [hcl]
          · show st.clusterIds ++ [clusterIdString (st.counter + 1)] =
              (List.range (st.counter + 1)).map (fun k => clusterIdString (k + 1))
            rw [hids, List.range_succ, List.map_append]
            rfl
          · intro r0 hr0
            rw [getLast_concat_row _ _ _ hr0]
            exact ⟨rfl, rfl⟩
          · intro r0 hr0
            rcases hrows : st.rows with - | ⟨x, xs⟩
            · rw [hrows, List.nil_append, List.head?_cons, Option.some_inj] at hr0
              subst hr0
              rw [(hnil hrows).2]
            · rw [hrows, List.cons_append, List.head?_cons, Option.some_inj] at hr0
              subst hr0
              exact hhead x (by rw [hrows]; rfl)
      · exact Except.noConfusion h
    · exact Except.noConfusion h
  · exact Except.noConfusion h

/-- The whole loop preserves the invariant. -/
theorem parseClusterLines_good {genomes : List String} :
    ∀ (lines : List String) {st st' : ClusterState},
      parseClusterLines genomes st lines = .ok st' → GoodState st → GoodState st' := by
  intro lines
  induction lines with
  | nil =>
    intro st st' h hg
    simp only [parseClusterLines] at h
    injection h with h
    exact h ▸ hg
  | cons l ls ih =>
    intro st st' h hg
    simp only [parseClusterLines] at h
    split at h
    · rename_i st2 heq
      exact ih h (parseClusterLine_good heq hg)
    · exact Except.noConfusion h

/-- Numbers along an `adjStep` chain are non-decreasing. -/
theorem chain_num_le {rows : List ClusterRow} (hchain : List.Chain' adjStep rows) :
    ∀ (n i j : Nat) (hij : i ≤ j) (hn : j - i ≤ n) (hj : j < rows.length),
      (rows.get ⟨i, lt_of_le_of_lt hij hj⟩).num ≤ (rows.get ⟨j, hj⟩).num := by
  intro n
  induction n with
  | zero =>
    intro i j hij hn hj
    have hii : i = j := by omega
    subst hii
    exact le_refl _
  | succ n ih =>
    intro i j hij hn hj
    by_cases hij2 : i = j
    · subst hij2
      exact le_refl _
    · have hi1 : i + 1 ≤ j := by omega
      have hstep := List.chain'_iff_get.1 hchain i (by omega)
      have h1 : (rows.get ⟨i, lt_of_le_of_lt hij hj⟩).num ≤
          (rows.get ⟨i + 1, lt_of_le_of_lt hi1 hj⟩).num := by
        unfold adjStep at hstep
        split at hstep
        · exact le_of_eq hstep.symm
        · exact le_of_lt (hstep ▸ Nat.lt_succ_self _)
      exact le_trans h1 (ih (i + 1) j hi1 (by omega) hj)

/-- Along an `adjStep` chain whose keys are grouped, rows with equal keys
carry equal numbers. -/
theorem chain_same_key_num {rows : List ClusterRow} (hchain : List.Chain' adjStep rows)
    (hgrp : Grouped (rows.map ClusterRow.key)) :
    ∀ (n i j : Nat) (hij : i ≤ j) (hn : j - i ≤ n) (hj : j < rows.length),
      (rows.get ⟨i, lt_of_le_of_lt hij hj⟩).key = (rows.get ⟨j, hj⟩).key →
      (rows.get ⟨i, lt_of_le_of_lt hij hj⟩).num = (rows.get ⟨j, hj⟩).num := by
  intro n
  induction n with
  | zero =>
    intro i j hij hn hj hkey
    have hii : i = j := by omega
    subst hii
    rfl
  | succ n ih =>
    intro i j hij hn hj hkey
    by_cases hij2 : i = j
    · subst hij2
      rfl
    · have hi1 : i + 1 ≤ j := by omega
      have hjm : j < (rows.map ClusterRow.key).length := by
        rw [List.length_map]
        exact hj
      have hkey1 : (rows.get ⟨i + 1, lt_of_le_of_lt hi1 hj⟩).key = (rows.get ⟨j, hj⟩).key := by
        have hmap := hgrp i (i + 1) j (Nat.le_succ i) hi1 hjm
        rw [List.get_map, List.get_map, List.get_map] at hmap
        exact hmap hkey
      have hstep := List.chain'_iff_get.1 hchain i (by omega)
      have heq1 : (rows.get ⟨i + 1, lt_of_le_of_lt hi1 hj⟩).num =
          (rows.get ⟨i, lt_of_le_of_lt hij hj⟩).num := by
        unfold adjStep at hstep
        rw [if_pos (hkey1.trans hkey.symm)] at hstep
        exact hstep
      rw [← heq1]
      exact ih (i + 1) j hi1 (by omega) hj hkey1

/-- C2: on a cluster-membership input whose rows sharing a raw cluster key
are contiguous, every member row of one raw cluster key receives the same
synthetic cluster identifier (both the same numeric suffix and the same
identifier string), even though the assignment only compares each row's key
with the immediately preceding row's key. -/
theorem parse_cluster_results_same_key_same_id (lines genomes : List String)
    (st : ClusterState) (h : parse_cluster_results lines genomes = .ok st)
    (hgrp : Grouped (st.rows.map ClusterRow.key)) :
    ∀ i j (hi : i < st.rows.length) (hj : j < st.rows.length),
      (st.rows.get ⟨i, hi⟩).key = (st.rows.get ⟨j, hj⟩).key →
      (st.rows.get ⟨i, hi⟩).num = (st.rows.get ⟨j, hj⟩).num ∧
      clusterIdString (st.rows.get ⟨i, hi⟩).num = clusterIdString (st.rows.get ⟨j, hj⟩).num := by
  have hg := parseClusterLines_good lines h goodState_init
  obtain ⟨hchain, -, -, -, -⟩ := hg
  intro i j hi hj hkey
  rcases le_total i j with hij | hij
  · have := chain_same_key_num hchain hgrp (j - i) i j hij (le_refl _) hj hkey
    exact ⟨this, congrArg clusterIdString this⟩
  · have := chain_same_key_num hchain hgrp (i - j) j i hij (le_refl _) hi hkey.symm
    exact ⟨this.symm, congrArg clusterIdString this.symm⟩

/-- C3: cluster identifiers are minted sequentially from 1 in first-seen
order of raw key runs, globally across genomes: the returned identifier set
is exactly `cluster_1 … cluster_counter`, the first row receives number 1,
and each row whose key differs from the immediately preceding row's key
receives the previous number plus one — strictly larger than every number
assigned before, so an earlier number is never reused even if the raw key
is lexically equal to one of an earlier non-adjacent run. -/
theorem parse_cluster_results_sequential_fresh_ids (lines genomes : List String)
    (st : ClusterState) (h : parse_cluster_results lines genomes = .ok st) :
    st.clusterIds = (List.range st.counter).map (fun k => clusterIdString (k + 1)) ∧
    (∀ (h0 : 0 < st.rows.length), (st.rows.get ⟨0, h0⟩).num = 1) ∧
    (∀ i (hi1 : i + 1 < st.rows.length),
       (st.rows.get ⟨i + 1, hi1⟩).key ≠ (st.rows.get ⟨i, Nat.lt_of_succ_lt hi1⟩).key →
         (st.rows.get ⟨i + 1, hi1⟩).num = (st.rows.get ⟨i, Nat.lt_of_succ_lt hi1⟩).num + 1 ∧
         ∀ j (hji : j ≤ i),
           (st.rows.get ⟨j, lt_of_le_of_lt (le_trans hji (Nat.le_succ i)) hi1⟩).num <
             (st.rows.get ⟨i + 1, hi1⟩).num) := by
  have hg := parseClusterLines_good lines h goodState_init
  obtain ⟨hchain, hids, hnil, hlast, hhead⟩ := hg
  refine ⟨hids, ?_, ?_⟩
  · intro h0
    apply hhead
    rw [List.head?_eq_head (List.length_pos.mp h0)]
    rw [List.get_eq_getElem, List.getElem_zero h0]
  · intro i hi1 hkey
    have hstep := List.chain'_iff_get.1 hchain i (by omega)
    have hinc : (st.rows.get ⟨i + 1, hi1⟩).num =
        (st.rows.get ⟨i, Nat.lt_of_succ_lt hi1⟩).num + 1 := by
      unfold adjStep at hstep
      rw [if_neg hkey] at hstep
      exact hstep
    refine ⟨hinc, ?_⟩
    intro j hji
    have hle := chain_num_le hchain (i - j) j i hji (le_refl _) (Nat.lt_of_succ_lt hi1)
    rw [hinc]
    exact Nat.lt_succ_of_le hle

/-! ## One output row per input line -/

/-- A successful iteration appends exactly one row, whose key/genome/protein
fields are the parsed fields of the input line. -/
theorem parseClusterLine_ok_shape {genomes : List String} {st st' : ClusterState}
    {line : String} (h : parseClusterLine genomes st line = .ok st') :
    ∃ r : ClusterRow, st'.rows = st.rows ++ [r] ∧
      parseLine line = some (r.key, r.genomeId, r.sequenceId) := by
  unfold parseClusterLine at h
  unfold parseLine
  split at h
  · rename_i cluster_id member heqline
    split at h
    · rename_i genome_id sequence_id heqmem
      split at h
      · rename_i hmem
        split at h
        · injection h with h
          subst h
          exact ⟨⟨cluster_id, genome_id, sequence_id, st.counter⟩, rfl, rfl⟩
        · injection h with h
          subst h
          exact ⟨⟨cluster_id, genome_id, sequence_id, st.counter + 1⟩, rfl, rfl⟩
      · exact Except.noConfusion h
    · exact Except.noConfusion h
  · exact Except.noConfusion h

/-- The successful loop appends one row per input line, in input order, with
the fields parsed from the corresponding line. -/
theorem parseClusterLines_trace {genomes : List String} :
    ∀ (lines : List String) {st st' : ClusterState},
      parseClusterLines genomes st lines = .ok st' →
      ∃ rs : List ClusterRow, st'.rows = st.rows ++ rs ∧ rs.length = lines.length ∧
        ∀ i (h1 : i < lines.length) (h2 : i < rs.length),
          parseLine (lines.get ⟨i, h1⟩) =
            some ((rs.get ⟨i, h2⟩).key, (rs.get ⟨i, h2⟩).genomeId,
                  (rs.get ⟨i, h2⟩).sequenceId) := by
  intro lines
  induction lines with
  | nil =>
    intro st st' h
    simp only [parseClusterLines] at h
    injection h with h
    subst h
    exact ⟨[], by simp, rfl, fun i h1 h2 => absurd h1 (by simp)⟩
  | cons l ls ih =>
    intro st st' h
    simp only [parseClusterLines] at h
    split at h
    · rename_i st2 heq
      obtain ⟨r, hrows2, hline⟩ := parseClusterLine_ok_shape heq
      obtain ⟨rs, hrows3, hlen, hcorr⟩ := ih h
      refine ⟨r :: rs, ?_, by simp [hlen], ?_⟩
      · rw [hrows3, hrows2, List.append_assoc]
        rfl
      · intro i h1 h2
        cases i with
        | zero => exact hline
        | succ i => exact hcorr i (Nat.lt_of_succ_lt_succ h1) (Nat.lt_of_succ_lt_succ h2)
    · exact Except.noConfusion h

/-- C8: for a successful run, the hypothetical-annotations output file holds
exactly one `(genome id, protein id, cluster id)` row per input membership
line, in processing order: the trace has the input's length, the i-th row's
genome and protein fields are those parsed from the i-th input line, and
each written line is the tab-joined triple carrying the assigned
identifier `cluster_num`. -/
theorem parse_cluster_results_one_row_per_line (lines genomes : List String)
    (st : ClusterState) (h : parse_cluster_results lines genomes = .ok st) :
    st.rows.length = lines.length ∧
    (∀ i (h1 : i < lines.length) (h2 : i < st.rows.length),
       parseLine (lines.get ⟨i, h1⟩) =
         some ((st.rows.get ⟨i, h2⟩).key, (st.rows.get ⟨i, h2⟩).genomeId,
               (st.rows.get ⟨i, h2⟩).sequenceId)) ∧
    fileLines st = st.rows.map (fun r =>
      r.genomeId ++ "\t" ++ r.sequenceId ++ "\t" ++ clusterIdString r.num ++ "\n") := by
  obtain ⟨rs, hrows, hlen, hcorr⟩ := parseClusterLines_trace lines h
  have hrs : st.rows = rs := by
    rw [hrows]
    rfl
  refine ⟨?_, ?_, rfl⟩
  · rw [hrs]
    exact hlen
  · intro i h1 h2
    have h2' : i < rs.length := hrs ▸ h2
    rw [List.get_of_eq hrs ⟨i, h2⟩]
    exact hcorr i h1 h2'

/-! ## Unknown genome references are fatal -/

/-- A line whose member key names a genome outside the supplied genome set
makes the iteration raise `KeyError`. -/
theorem parseClusterLine_unknown_genome {genomes : List String} {st : ClusterState}
    {line : String} {cid g s : String}
    (hl : parseLine line = some (cid, g, s)) (hg : g ∉ genomes) :
    parseClusterLine genomes st line = .error ("KeyError: " ++ g) := by
  unfold parseLine at hl
  unfold parseClusterLine
  split at hl
  · rename_i cluster_id member heqline
    split at hl
    · rename_i genome_id sequence_id heqmem
      injection hl with hl
      injection hl with hl1 hl2
      injection hl2 with hl2 hl3
      subst hl1
      subst hl2
      subst hl3
      rw [if_neg hg]
    · exact Option.noConfusion hl
  · exact Option.noConfusion hl

/-- A loop whose remaining input holds a line referencing an unknown genome
never succeeds. -/
theorem parseClusterLines_unknown_genome {genomes : List String} :
    ∀ (lines : List String) (st : ClusterState),
      (∃ l ∈ lines, ∃ cid g s, parseLine l = some (cid, g, s) ∧ g ∉ genomes) →
      ∃ e, parseClusterLines genomes st lines = .error e := by
  intro lines
  induction lines with
  | nil =>
    intro st h
    obtain ⟨l, hl, -⟩ := h
    exact absurd hl (List.not_mem_nil l)
  | cons l0 ls ih =>
    intro st h
    simp only [parseClusterLines]
    obtain ⟨l, hl, hrest⟩ := h
    rcases List.mem_cons.1 hl with rfl | hl2
    · obtain ⟨cid, g, s, hpl, hg⟩ := hrest
      rw [parseClusterLine_unknown_genome hpl hg]
      exact ⟨"KeyError: " ++ g, rfl⟩
    · rcases heq : parseClusterLine genomes st l0 with e2 | st2
      · exact ⟨e2, rfl⟩
      · exact ih st2 ⟨l, hl2, hrest⟩

/-- C6: a cluster-membership line whose member key names a genome identifier
absent from the genome list supplied to `parse_cluster_results` makes the
whole call fail with an error (`KeyError` on the genome dictionary): the
line is never silently skipped. -/
theorem parse_cluster_results_unknown_genome_fatal (lines genomes : List String)
    (h : ∃ l ∈ lines, ∃ cid g s, parseLine l = some (cid, g, s) ∧ g ∉ genomes) :
    ∃ e, parse_cluster_results lines genomes = .error e :=
  parseClusterLines_unknown_genome lines initClusterState h

/-- Witness for C6: a membership line naming genome `GZ` while only `G1` was
supplied makes the call fail. -/
theorem parse_cluster_results_unknown_genome_fatal_witness :
    ∃ e, parse_cluster_results ["repZ\tGZ~p9"] ["G1"] = .error e :=
  parse_cluster_results_unknown_genome_fatal ["repZ\tGZ~p9"] ["G1"]
    ⟨"repZ\tGZ~p9", by decide, "repZ", "GZ", "p9", by decide, by decide⟩

/-- Witness for C2 at the concrete two-member single-cluster input. -/
theorem parse_cluster_results_same_key_same_id_witness :
    (twoRowState.rows.get ⟨0, by decide⟩).num = (twoRowState.rows.get ⟨1, by decide⟩).num ∧
    clusterIdString (twoRowState.rows.get ⟨0, by decide⟩).num =
      clusterIdString (twoRowState.rows.get ⟨1, by decide⟩).num :=
  parse_cluster_results_same_key_same_id ["ra\tGm~x1", "ra\tGm~x2"] ["Gm"] twoRowState
    (by decide)
    (by
      intro i j k hij hjk hk heq
      have hk2 : k < 2 := by simpa [twoRowState] using hk
      interval_cases k <;> interval_cases j <;> rfl)
    0 1 (by decide) (by decide) (by decide)

/-- Witness for C3 at the concrete two-cluster input. -/
theorem parse_cluster_results_sequential_fresh_ids_witness :
    twoRunState.clusterIds =
      (List.range twoRunState.counter).map (fun k => clusterIdString (k + 1)) :=
  (parse_cluster_results_sequential_fresh_ids ["rb\tGn~y1", "rc\tGn~y2"] ["Gn"]
    twoRunState (by decide)).1

/-- Witness for C8 at a concrete single-line input. -/
theorem parse_cluster_results_one_row_per_line_witness :
    oneRowState.rows.length = (["rd\tGq~z1"] : List String).length :=
  (parse_cluster_results_one_row_per_line ["rd\tGq~z1"] ["Gq"] oneRowState (by decide)).1

/-! ## `parse_genome_and_annotation_file_lf` -/

/-- A list of length two is a two-element literal. -/
theorem length_two_fields {xs : List String} (h : xs.length = 2) :
    ∃ g a, xs = [g, a] := by
  rcases xs with - | ⟨x, - | ⟨y, - | ⟨z, rest⟩⟩⟩
  · simp at h
  · simp at h
  · exact ⟨x, y, rfl⟩
  · simp [List.length_cons] at h

/-- Inserting an annotation makes it a member of its genome's set. -/
theorem insertAnnot_self (m : List (String × List String)) (g a : String) :
    ∃ s, List.lookup g (insertAnnot m g a) = some s ∧ a ∈ s := by
  induction m with
  | nil =>
    refine ⟨[a], ?_, by simp⟩
    simp [insertAnnot, List.lookup]
  | cons p rest ih =>
    obtain ⟨g0, s0⟩ := p
    by_cases hg : g0 = g
    · subst hg
      by_cases ha : a ∈ s0
      · refine ⟨s0, ?_, ha⟩
        simp [insertAnnot, ha, List.lookup]
      · refine ⟨s0 ++ [a], ?_, by simp⟩
        simp [insertAnnot, ha, List.lookup]
    · obtain ⟨s, hs, has⟩ := ih
      refine ⟨s, ?_, has⟩
      have hbeq : (g == g0) = false := by
        simp only [beq_eq_false_iff_ne, ne_eq]
        exact fun hh => hg hh.symm
      simp [insertAnnot, hg, List.lookup, hbeq, hs]

/-- Inserting an annotation preserves all previously accumulated
memberships. -/
theorem insertAnnot_mono (m : List (String × List String)) (g a g2 a2 : String)
    (h : ∃ s, List.lookup g2 m = some s ∧ a2 ∈ s) :
    ∃ s, List.lookup g2 (insertAnnot m g a) = some s ∧ a2 ∈ s := by
  induction m with
  | nil =>
    obtain ⟨s, hs, -⟩ := h
    simp at hs
  | cons p rest ih =>
    obtain ⟨g0, s0⟩ := p
    obtain ⟨s, hs, has⟩ := h
    by_cases hg : g0 = g
    · by_cases h2 : g2 = g0
      · have hbeq : (g2 == g0) = true := by simp [h2]
        simp only [List.lookup_cons, hbeq, Option.some.injEq] at hs
        subst hs
        have hins : insertAnnot ((g0, s0) :: rest) g a =
            (g0, if a ∈ s0 then s0 else s0 ++ [a]) :: rest := by
          simp [insertAnnot, hg]
        rw [hins]
        simp only [List.lookup_cons, hbeq]
        refine ⟨if a ∈ s0 then s0 else s0 ++ [a], rfl, ?_⟩
        by_cases ha : a ∈ s0 <;> simp [ha, has]
      · have hbeq : (g2 == g0) = false := by simp [h2]
        simp only [List.lookup_cons, hbeq] at hs
        have hins : insertAnnot ((g0, s0) :: rest) g a =
            (g0, if a ∈ s0 then s0 else s0 ++ [a]) :: rest := by
          simp [insertAnnot, hg]
        rw [hins]
        simp only [List.lookup_cons, hbeq]
        exact ⟨s, hs, has⟩
    · have hins : insertAnnot ((g0, s0) :: rest) g a =
          (g0, s0) :: insertAnnot rest g a := by
        simp [insertAnnot, hg]
      by_cases h2 : g2 = g0
      · have hbeq : (g2 == g0) = true := by simp [h2]
        simp only [List.lookup_cons, hbeq, Option.some.injEq] at hs
        subst hs
        rw [hins]
        simp only [List.lookup_cons, hbeq]
        exact ⟨s0, rfl, has⟩
      · have hbeq : (g2 == g0) = false := by simp [h2]
        simp only [List.lookup_cons, hbeq] at hs
        obtain ⟨s2, hs2, has2⟩ := ih ⟨s, hs, has⟩
        rw [hins]
        simp only [List.lookup_cons, hbeq]
        exact ⟨s2, hs2, has2⟩

/-- A malformed line aborts the loop with the message naming the first
offending line. -/
theorem parseLfLines_error :
    ∀ (lines : List String) (acc : List (String × List String)) (l : String),
      firstBadLfLine lines = some l →
      parseLfLines acc lines = .error ("Input genomes/annotation file error on " ++ l) := by
  intro lines
  induction lines with
  | nil =>
    intro acc l h
    simp [firstBadLfLine] at h
  | cons l0 ls ih =>
    intro acc l h
    by_cases hlen : (lfFields l0).length = 2
    · have hfind : firstBadLfLine ls = some l := by
        simpa [firstBadLfLine, List.find?_cons, hlen] using h
      obtain ⟨g, a, hga⟩ := length_two_fields hlen
      simp only [parseLfLines]
      rw [hga]
      exact ih _ l hfind
    · have hl0 : l0 = l := by
        have : firstBadLfLine (l0 :: ls) = some l0 := by
          simp [firstBadLfLine, List.find?_cons, hlen]
        rw [this] at h
        injection h
      subst hl0
      simp only [parseLfLines]
      rcases hf : lfFields l0 with - | ⟨x, - | ⟨y, - | ⟨z, rest⟩⟩⟩
      · rfl
      · rfl
      · exact absurd (by rw [hf] ; rfl) hlen
      · rfl

/-- A well-formed file parses successfully and accumulates every line's
annotation into its genome's set. -/
theorem parseLfLines_ok :
    ∀ (lines : List String) (acc : List (String × List String)),
      firstBadLfLine lines = none →
      ∃ m, parseLfLines acc lines = .ok m ∧
        (∀ g a, (∃ s, List.lookup g acc = some s ∧ a ∈ s) →
           ∃ s, List.lookup g m = some s ∧ a ∈ s) ∧
        (∀ l ∈ lines, ∀ g a, lfFields l = [g, a] →
           ∃ s, List.lookup g m = some s ∧ a ∈ s) := by
  intro lines
  induction lines with
  | nil =>
    intro acc h
    exact ⟨acc, rfl, fun g a hs => hs, fun l hl => absurd hl (List.not_mem_nil l)⟩
  | cons l0 ls ih =>
    intro acc h
    by_cases hlen : (lfFields l0).length = 2
    · have hfind : firstBadLfLine ls = none := by
        simpa [firstBadLfLine, List.find?_cons, hlen] using h
      obtain ⟨g, a, hga⟩ := length_two_fields hlen
      obtain ⟨m, hm, hmono, hacc⟩ := ih (insertAnnot acc g a) hfind
      refine ⟨m, ?_, ?_, ?_⟩
      · simp only [parseLfLines]
        rw [hga]
        exact hm
      · intro g2 a2 hs
        exact hmono g2 a2 (insertAnnot_mono acc g a g2 a2 hs)
      · intro l hl g2 a2 hfields
        rcases List.mem_cons.1 hl with rfl | hl2
        · rw [hga] at hfields
          injection hfields with h1 h23
          injection h23 with h2 h3
          rw [← h1, ← h2]
          exact hmono g a (insertAnnot_self acc g a)
        · exact hacc l hl2 g2 a2 hfields
    · exfalso
      have : firstBadLfLine (l0 :: ls) = some l0 := by
        simp [firstBadLfLine, List.find?_cons, hlen]
      rw [this] at h
      exact Option.noConfusion h

/-- C7: a line that does not split into exactly two tab-separated fields
makes `parse_genome_and_annotation_file_lf` fail immediately with an
exception whose message carries the offending line content (the first such
line); when every line is well-formed, the parse succeeds and each line's
annotation is accumulated into its genome's annotation set. -/
theorem parse_lf_malformed_fatal_and_accumulates (lines : List String) :
    (∀ l, firstBadLfLine lines = some l →
       parse_genome_and_annotation_file_lf lines =
         .error ("Input genomes/annotation file error on " ++ l)) ∧
    (firstBadLfLine lines = none →
       ∃ m, parse_genome_and_annotation_file_lf lines = .ok m ∧
         ∀ l ∈ lines, ∀ g a, lfFields l = [g, a] →
           ∃ s, List.lookup g m = some s ∧ a ∈ s) :=
  ⟨fun l h => parseLfLines_error lines [] l h,
   fun h => by
     obtain ⟨m, hm, -, hacc⟩ := parseLfLines_ok lines [] h
     exact ⟨m, hm, hacc⟩⟩

/-- Witness for C7: a tab-less line after a well-formed line fails the parse
with the offending line named in the message. -/
theorem parse_lf_malformed_fatal_witness :
    parse_genome_and_annotation_file_lf ["g1\tK00001", "badline"] =
      .error ("Input genomes/annotation file error on " ++ "badline") :=
  (parse_lf_malformed_fatal_and_accumulates ["g1\tK00001", "badline"]).1 "badline" (by decide)

end EnrichM
